import Mathlib

/-!
Verification of the autoSubtitle pipeline against its specification.

The development shallowly embeds the Python sources:
  * `src/utils/timing_adjuster.py`  (subtitle timing adjustment)
  * `src/utils/translator_deepseek.py` (batch translation response handling)
  * `src/utils/subtitle_shield.py` (quality-control action application)
  * `src/utils/checkpoint.py` (checkpoint save/load)
  * `src/generate_subtitle.py` (pipeline orchestration / resume)

Times are modelled as rationals.  Python's `round(x, 3)` is modelled as
rounding `1000*x` to the nearest integer; Python uses round-half-to-even at
exact ties while Mathlib's `round` rounds half up, but no value appearing in
this development sits at a tie, where the two agree.
-/

/-- A transcription segment as the dicts handled by `adjust_subtitle_timing`:
keys `start`, `end`, `text`.  (`end` is a Lean keyword, hence `endT`.) -/
structure Segment where
  start : ℚ
  endT : ℚ
  text : String
  deriving DecidableEq, Repr

/-- Python `round(x, 3)`: round to three decimal places, as `⌊1000*x + 1/2⌋ / 1000`
(implemented with the executable `Rat.floor`). -/
def rnd3 (x : ℚ) : ℚ := ((1000 * x + 1/2).floor : ℚ) / 1000

/-- Python `str.strip()` whitespace test (ASCII whitespace). -/
def isSpaceChar (c : Char) : Bool :=
  c = ' ' ∨ c = '\t' ∨ c = '\n' ∨ c = '\r' ∨ c = '\x0b' ∨ c = '\x0c'

/-- Python `str.strip()`. -/
def pyStrip (s : String) : String :=
  String.mk (((s.toList.dropWhile isSpaceChar).reverse.dropWhile isSpaceChar).reverse)

/-- Function `is_sentence_ending` from `timing_adjuster.py`: after stripping, an empty
text counts as ended, otherwise the last character must be closing
punctuation. -/
def is_sentence_ending (text : String) : Bool :=
  let t := pyStrip text
  match t.toList.getLast? with
  | none => true
  | some c => ['.', '?', '!', '"', '”', ')', ']', '…'].contains c

/-- The quantity `effective_min_duration = max(min_duration, len(text) / 15)` with the
fixed reading speed of 15 characters per second. -/
def effectiveMinDuration (minDur : ℚ) (text : String) : ℚ :=
  max minDur ((text.length : ℚ) / 15)

/-- The `sentence_incomplete` flag of `adjust_subtitle_timing`: the AI
structure analysis takes priority when it covers index `i` (a non-empty list
with `i` in range), otherwise the punctuation heuristic is used. -/
def sentenceIncomplete (sa : Option (List String)) (i : ℕ) (text : String) : Bool :=
  match sa with
  | some l =>
      if h : i < l.length then l.get ⟨i, h⟩ == "CONTINUES"
      else !(is_sentence_ending text)
  | none => !(is_sentence_ending text)

/-- The new (pre-rounding) end time computed by one iteration of the loop in
`adjust_subtitle_timing` for the segment at index `i`.  Mirrors the source:
bridge incomplete sentences, close short gaps, resolve overlaps, enforce the
reading-time minimum, then the final safety check. -/
def adjustOneRaw (minDur maxDur gap : ℚ) (segments : List Segment)
    (sa : Option (List String)) (i : ℕ) (seg : Segment) : ℚ :=
  let start := seg.start
  let effMin := effectiveMinDuration minDur seg.text
  match segments.get? (i + 1) with
  | some nextSeg =>
      let nextStart := nextSeg.start
      let silenceGap := nextStart - seg.endT
      let e1 :=
        if sentenceIncomplete sa i seg.text = true ∧ silenceGap < 4 then
          if nextStart - gap - start ≤ maxDur then nextStart - gap else start + maxDur
        else if silenceGap < 3/2 then
          if nextStart - gap - start ≤ maxDur then nextStart - gap else seg.endT
        else if silenceGap ≤ 0 then nextStart - gap
        else seg.endT
      let e2 :=
        if e1 - start < effMin then
          if start + effMin < nextStart - gap then start + effMin else nextStart - gap
        else e1
      if e2 ≤ start then start + effMin else e2
  | none =>
      let e1 := if seg.endT - start < effMin then start + effMin else seg.endT
      if e1 ≤ start then start + effMin else e1

/-- One adjusted segment: start and new end rounded to 3 decimals, text kept. -/
def adjustOne (minDur maxDur gap : ℚ) (segments : List Segment)
    (sa : Option (List String)) (i : ℕ) (seg : Segment) : Segment :=
  { start := rnd3 seg.start
    endT := rnd3 (adjustOneRaw minDur maxDur gap segments sa i seg)
    text := seg.text }

/-- The indexed loop of `adjust_subtitle_timing`, processing the suffix of
the segment list starting at index `i` (lookups go through the full list). -/
def adjustFrom (minDur maxDur gap : ℚ) (segments : List Segment)
    (sa : Option (List String)) : ℕ → List Segment → List Segment
  | _, [] => []
  | i, seg :: rest =>
      adjustOne minDur maxDur gap segments sa i seg ::
        adjustFrom minDur maxDur gap segments sa (i + 1) rest

/-- Function `adjust_subtitle_timing(segments, structure_analysis)` with the three
environment-configured parameters `SUBTITLE_MIN_DURATION`,
`SUBTITLE_MAX_DURATION` and `SUBTITLE_GAP` made explicit (defaults 1.5, 8.0,
0.1). -/
def adjust_subtitle_timing (minDur maxDur gap : ℚ) (segments : List Segment)
    (sa : Option (List String)) : List Segment :=
  adjustFrom minDur maxDur gap segments sa 0 segments

/-! ### Structural lemmas about the timing loop -/

theorem rat_floor_eq_int_floor (q : ℚ) : q.floor = ⌊q⌋ := rfl

theorem rnd3_mono {x y : ℚ} (h : x ≤ y) : rnd3 x ≤ rnd3 y := by
  unfold rnd3
  rw [rat_floor_eq_int_floor, rat_floor_eq_int_floor]
  have hf : ⌊1000 * x + 1/2⌋ ≤ ⌊1000 * y + 1/2⌋ := Int.floor_mono (by linarith)
  have hf' : ((⌊1000 * x + 1/2⌋ : ℤ) : ℚ) ≤ ((⌊1000 * y + 1/2⌋ : ℤ) : ℚ) := by
    exact_mod_cast hf
  linarith

theorem adjustFrom_length (minDur maxDur gap : ℚ) (segments : List Segment)
    (sa : Option (List String)) (i : ℕ) (l : List Segment) :
    (adjustFrom minDur maxDur gap segments sa i l).length = l.length := by
  induction l generalizing i with
  | nil => rfl
  | cons seg rest ih => simp [adjustFrom, ih]

theorem adjustFrom_get? (minDur maxDur gap : ℚ) (segments : List Segment)
    (sa : Option (List String)) (i j : ℕ) (l : List Segment) :
    (adjustFrom minDur maxDur gap segments sa i l).get? j =
      (l.get? j).map (adjustOne minDur maxDur gap segments sa (i + j)) := by
  induction l generalizing i j with
  | nil => simp [adjustFrom]
  | cons seg rest ih =>
      cases j with
      | zero => simp [adjustFrom]
      | succ j =>
          simp only [adjustFrom, List.get?]
          rw [ih (i + 1) j, show i + 1 + j = i + (j + 1) from by omega]

theorem adjust_get? (minDur maxDur gap : ℚ) (segments : List Segment)
    (sa : Option (List String)) (j : ℕ) :
    (adjust_subtitle_timing minDur maxDur gap segments sa).get? j =
      (segments.get? j).map (adjustOne minDur maxDur gap segments sa j) := by
  unfold adjust_subtitle_timing
  rw [adjustFrom_get?, show 0 + j = j from by omega]

/-- Pre-rounding bound: under well-spaced, non-overlapping input, the new end
of a non-final segment never passes the next segment's start. -/
theorem adjustOneRaw_le_nextStart
    (minDur maxDur gap : ℚ) (segments : List Segment) (sa : Option (List String))
    (i : ℕ) (seg nextSeg : Segment)
    (hnext : segments.get? (i + 1) = some nextSeg)
    (hm : 0 < minDur) (hg : 0 ≤ gap)
    (hd : seg.start < seg.endT) (hno : seg.endT ≤ nextSeg.start)
    (hsp : seg.start + gap < nextSeg.start) :
    adjustOneRaw minDur maxDur gap segments sa i seg ≤ nextSeg.start := by
  have heff : 0 < effectiveMinDuration minDur seg.text :=
    lt_of_lt_of_le hm (le_max_left _ _)
  unfold adjustOneRaw
  rw [hnext]
  simp only
  split_ifs <;> linarith

/-- Pre-rounding minimum-duration guarantee: the new end either honours the
effective minimum duration or is exactly the clamp value
`next.start - gap`. -/
theorem adjustOneRaw_min_or_clamped
    (minDur maxDur gap : ℚ) (segments : List Segment) (sa : Option (List String))
    (i : ℕ) (seg : Segment) :
    seg.start + effectiveMinDuration minDur seg.text ≤
        adjustOneRaw minDur maxDur gap segments sa i seg
    ∨ ∃ nextSeg, segments.get? (i + 1) = some nextSeg ∧
        adjustOneRaw minDur maxDur gap segments sa i seg = nextSeg.start - gap := by
  unfold adjustOneRaw
  cases hnext : segments.get? (i + 1) with
  | none =>
      simp only
      split_ifs <;> [left; left; left; left] <;> linarith
  | some nextSeg =>
      simp only
      split_ifs
      all_goals first
        | (left; linarith)
        | (right; exact ⟨nextSeg, rfl, rfl⟩)

/-! ### Claim C1: no-overlap invariant of adjust_subtitle_timing -/

set_option maxRecDepth 100000

/-- Claim C1 counterexample: `adjust_subtitle_timing` can return overlapping
cues.  With the default configuration, for input cues
`[(0, 10, "Hello."), (9, 11, "Hi.")]` and no hint list, the short-gap branch
leaves the first end untouched because extending to `next.start - gap` would
exceed the maximum duration, so the first adjusted cue still ends at 10 while
the second starts at 9: the claimed invariant
`adjusted[i].end <= adjusted[i+1].start` fails. -/
theorem timing_overlap_counterexample :
    (adjust_subtitle_timing (3/2) 8 (1/10)
        [⟨0, 10, "Hello."⟩, ⟨9, 11, "Hi."⟩] none) =
      [⟨0, 10, "Hello."⟩, ⟨9, 11, "Hi."⟩]
    ∧ ¬ ((10 : ℚ) ≤ 9) := by
  constructor
  · with_unfolding_all decide
  · norm_num

/-- Claim C1, amended: if the input cues all have positive duration, do not
overlap, and consecutive starts are more than the gap margin apart (and the
configured minimum duration is positive, the gap margin non-negative), then
the adjusted cue list contains no overlapping cues: for every adjacent pair,
`adjusted[i].end <= adjusted[i+1].start`. -/
theorem timing_no_overlap_of_spaced_input
    (minDur maxDur gap : ℚ) (segments : List Segment) (sa : Option (List String))
    (hm : 0 < minDur) (hg : 0 ≤ gap)
    (hdur : ∀ s ∈ segments, s.start < s.endT)
    (hchain : segments.Chain' (fun s t => s.endT ≤ t.start ∧ s.start + gap < t.start))
    (i : ℕ) (a b : Segment)
    (ha : (adjust_subtitle_timing minDur maxDur gap segments sa).get? i = some a)
    (hb : (adjust_subtitle_timing minDur maxDur gap segments sa).get? (i + 1) = some b) :
    a.endT ≤ b.start := by
  rw [adjust_get?] at ha hb
  obtain ⟨s, hs, has⟩ := Option.map_eq_some'.mp ha
  obtain ⟨t, ht, hbt⟩ := Option.map_eq_some'.mp hb
  obtain ⟨hlen, hgetn⟩ := List.get?_eq_some.mp ht
  have hpair := List.chain'_iff_get.mp hchain i (by omega)
  obtain ⟨hlen', hgets⟩ := List.get?_eq_some.mp hs
  rw [hgets] at hpair
  have hget_t : segments.get ⟨i + 1, by omega⟩ = t := hgetn
  rw [hget_t] at hpair
  have hraw : adjustOneRaw minDur maxDur gap segments sa i s ≤ t.start :=
    adjustOneRaw_le_nextStart minDur maxDur gap segments sa i s t ht hm hg
      (hdur s (List.get?_mem hs)) hpair.1 hpair.2
  have hend : a.endT = rnd3 (adjustOneRaw minDur maxDur gap segments sa i s) := by
    rw [← has]; rfl
  have hstart : b.start = rnd3 t.start := by
    rw [← hbt]; rfl
  rw [hend, hstart]
  exact rnd3_mono hraw

/-- Claim C1 witness: the amended no-overlap theorem applied to the concrete
well-spaced input `[(0, 2, "Hello."), (3, 5, "Hi.")]` with the default
configuration. -/
theorem timing_no_overlap_witness :
    Segment.endT ⟨0, 29/10, "Hello."⟩ ≤ Segment.start ⟨3, 5, "Hi."⟩ :=
  timing_no_overlap_of_spaced_input (3/2) 8 (1/10)
    [⟨0, 2, "Hello."⟩, ⟨3, 5, "Hi."⟩] none
    (by norm_num) (by norm_num)
    (by with_unfolding_all decide)
    (by simp only [List.chain'_cons, List.chain'_singleton, and_true]; norm_num)
    0 ⟨0, 29/10, "Hello."⟩ ⟨3, 5, "Hi."⟩
    (by with_unfolding_all decide) (by with_unfolding_all decide)

/-! ### Claim C8: effective minimum duration -/

/-- Claim C8 counterexample: a final (single) cue whose returned end minus
returned start is strictly below the effective minimum duration.  The cue
`(0.0006, 0.5)` with a 23-character text has effective minimum `23/15` s; the
loop extends the raw end to `0.0006 + 23/15`, but rounding both endpoints to
3 decimals yields `start = 0.001`, `end = 1.534`, and
`1.534 - 0.001 = 1.533 < 23/15`, so the returned cue violates
`end - start >= effective_min_duration` even though it is the final cue. -/
theorem timing_min_duration_counterexample :
    (adjust_subtitle_timing (3/2) 8 (1/10)
        [⟨3/5000, 1/2, "aaaaaaaaaaaaaaaaaaaaaaa"⟩] none) =
      [⟨1/1000, 767/500, "aaaaaaaaaaaaaaaaaaaaaaa"⟩]
    ∧ (767/500 : ℚ) - 1/1000 < effectiveMinDuration (3/2) "aaaaaaaaaaaaaaaaaaaaaaa" := by
  constructor
  · with_unfolding_all decide
  · with_unfolding_all decide

/-- Claim C8, amended: each cue's effective minimum duration is
`max(configured min_duration, len(text)/15)`, and before the final rounding
to 3 decimals every adjusted end satisfies `end - start >=
effective_min_duration`, except that a non-final cue may instead be clamped
exactly to `next.start - gap_margin`; the returned cue stores the two
endpoints rounded to 3 decimals (so the returned difference can fall short of
the effective minimum by up to 0.001, as the counterexample shows).  The
final cue, having no neighbour, always satisfies the pre-rounding minimum. -/
theorem timing_min_duration_or_clamped
    (minDur maxDur gap : ℚ) (segments : List Segment) (sa : Option (List String))
    (i : ℕ) (seg : Segment) (h : segments.get? i = some seg) :
    (adjust_subtitle_timing minDur maxDur gap segments sa).get? i
      = some { start := rnd3 seg.start,
               endT := rnd3 (adjustOneRaw minDur maxDur gap segments sa i seg),
               text := seg.text }
    ∧ (effectiveMinDuration minDur seg.text = max minDur ((seg.text.length : ℚ) / 15))
    ∧ (seg.start + effectiveMinDuration minDur seg.text ≤
          adjustOneRaw minDur maxDur gap segments sa i seg
        ∨ ∃ nextSeg, segments.get? (i + 1) = some nextSeg ∧
            adjustOneRaw minDur maxDur gap segments sa i seg = nextSeg.start - gap) := by
  refine ⟨?_, rfl, adjustOneRaw_min_or_clamped minDur maxDur gap segments sa i seg⟩
  rw [adjust_get?, h]
  rfl

/-- Claim C8 witness: the amended theorem applied to the concrete two-cue
input `[(0, 2, "Hello."), (3, 5, "Hi.")]` at index 1 (the final cue). -/
theorem timing_min_duration_witness :
    (adjust_subtitle_timing (3/2) 8 (1/10)
        [⟨0, 2, "Hello."⟩, ⟨3, 5, "Hi."⟩] none).get? 1
      = some { start := rnd3 3,
               endT := rnd3 (adjustOneRaw (3/2) 8 (1/10)
                 [⟨0, 2, "Hello."⟩, ⟨3, 5, "Hi."⟩] none 1 ⟨3, 5, "Hi."⟩),
               text := "Hi." }
    ∧ (effectiveMinDuration (3/2) "Hi." = max (3/2) (((("Hi." : String).length : ℚ)) / 15))
    ∧ ((3 : ℚ) + effectiveMinDuration (3/2) "Hi." ≤
          adjustOneRaw (3/2) 8 (1/10) [⟨0, 2, "Hello."⟩, ⟨3, 5, "Hi."⟩] none 1 ⟨3, 5, "Hi."⟩
        ∨ ∃ nextSeg, ([⟨0, 2, "Hello."⟩, ⟨3, 5, "Hi."⟩] : List Segment).get? 2 = some nextSeg ∧
            adjustOneRaw (3/2) 8 (1/10) [⟨0, 2, "Hello."⟩, ⟨3, 5, "Hi."⟩] none 1 ⟨3, 5, "Hi."⟩
              = nextSeg.start - 1/10) :=
  timing_min_duration_or_clamped (3/2) 8 (1/10)
    [⟨0, 2, "Hello."⟩, ⟨3, 5, "Hi."⟩] none 1 ⟨3, 5, "Hi."⟩ rfl

/-! ### Claim C9: frame effect of adjust_subtitle_timing -/

theorem adjustFrom_map_text (minDur maxDur gap : ℚ) (segments : List Segment)
    (sa : Option (List String)) (i : ℕ) (l : List Segment) :
    (adjustFrom minDur maxDur gap segments sa i l).map Segment.text =
      l.map Segment.text := by
  induction l generalizing i with
  | nil => rfl
  | cons seg rest ih => simp [adjustFrom, adjustOne, ih]

theorem adjustFrom_map_start (minDur maxDur gap : ℚ) (segments : List Segment)
    (sa : Option (List String)) (i : ℕ) (l : List Segment) :
    (adjustFrom minDur maxDur gap segments sa i l).map Segment.start =
      l.map (fun s => rnd3 s.start) := by
  induction l generalizing i with
  | nil => rfl
  | cons seg rest ih => simp [adjustFrom, adjustOne, ih]

/-- Claim C9: `adjust_subtitle_timing` returns a list of the same length and
order as its input, with every text kept identical and every start equal to
the input start rounded to 3 decimals; only the end field is otherwise
modified (a `Segment` has no other fields). -/
theorem timing_frame_effect
    (minDur maxDur gap : ℚ) (segments : List Segment) (sa : Option (List String)) :
    (adjust_subtitle_timing minDur maxDur gap segments sa).length = segments.length
    ∧ (adjust_subtitle_timing minDur maxDur gap segments sa).map Segment.text
        = segments.map Segment.text
    ∧ (adjust_subtitle_timing minDur maxDur gap segments sa).map Segment.start
        = segments.map (fun s => rnd3 s.start) :=
  ⟨adjustFrom_length minDur maxDur gap segments sa 0 segments,
   adjustFrom_map_text minDur maxDur gap segments sa 0 segments,
   adjustFrom_map_start minDur maxDur gap segments sa 0 segments⟩

/-! ### Embedding of translate_batch_with_deepseek (translator_deepseek.py) -/

/-- Python `str.upper()` (ASCII, which covers the sentinels compared). -/
def pyUpper (s : String) : String := String.mk (s.toList.map Char.toUpper)

/-- Python `str.split(chr(10))`: split at every newline, keeping empties. -/
def splitOnNl : List Char → List (List Char)
  | [] => [[]]
  | c :: rest =>
      if c = '\n' then [] :: splitOnNl rest
      else
        match splitOnNl rest with
        | [] => [[c]]
        | h :: t => (c :: h) :: t

/-- The lines of a response string. -/
def pyLines (s : String) : List String := (splitOnNl s.toList).map String.mk

/-- A separator character of the line-number prefix: the regex class
`[\.\)\s]`. -/
def isNumSep (c : Char) : Bool := c = '.' ∨ c = ')' ∨ isSpaceChar c

/-- The regex match `^\d+[\.\)\s]+(.*)` of `translate_batch_with_deepseek`:
one or more digits, one or more separators, and the captured remainder. -/
def matchNumbered (l : String) : Option String :=
  let cs := l.toList
  if (cs.takeWhile Char.isDigit).isEmpty then none
  else
    let rest := cs.dropWhile Char.isDigit
    if (rest.takeWhile isNumSep).isEmpty then none
    else some (String.mk (rest.dropWhile isNumSep))

/-- The parsing loop of `translate_batch_with_deepseek` over the response
lines: blank lines and unnumbered lines are ignored, a line whose captured
text uppercases to the skip sentinel is dropped, and non-empty captured
texts are appended in order. -/
def parseLines : List String → List String
  | [] => []
  | line :: rest =>
      let l := pyStrip line
      if l = "" then parseLines rest
      else
        match matchNumbered l with
        | none => parseLines rest
        | some g =>
            let t := pyStrip g
            if pyUpper t = "[SKIP]" ∨ pyUpper t = "SKIP" then parseLines rest
            else if t = "" then parseLines rest
            else t :: parseLines rest

/-- Translations extracted from a raw backend response. -/
def parseResponse (response : String) : List String :=
  parseLines (pyLines (pyStrip response))

/-- The count-mismatch handling of `translate_batch_with_deepseek`: an empty
parse falls back to the originals, a short parse is tail-padded with the
original texts, a long parse is truncated. -/
def reconcile (texts translations : List String) : List String :=
  if translations.length = 0 then texts
  else if translations.length < texts.length then
    translations ++ texts.drop translations.length
  else translations.take texts.length

/-- Function `translate_batch_with_deepseek(texts, ...)` as a function of the backend
outcome: an exception during the API call returns the original texts,
otherwise the parsed response is reconciled against the input length. -/
def translate_batch_with_deepseek (texts : List String)
    (response : Except Unit String) : List String :=
  match response with
  | .error _ => texts
  | .ok r => reconcile texts (parseResponse r)

/-! ### Claim C3: batch length invariant -/

/-- Claim C3: for every list of input texts and every backend outcome
(including a failing call), `translate_batch_with_deepseek` returns exactly
`len(texts)` elements; a shorter parsed response is tail-padded with the
original texts and a longer one is truncated. -/
theorem translator_batch_length_invariant
    (texts : List String) (response : Except Unit String) :
    (translate_batch_with_deepseek texts response).length = texts.length
    ∧ (∀ e, response = Except.error e →
        translate_batch_with_deepseek texts response = texts)
    ∧ (∀ r, response = Except.ok r →
        ((parseResponse r).length ≤ texts.length →
            translate_batch_with_deepseek texts response
              = parseResponse r ++ texts.drop (parseResponse r).length)
        ∧ (texts.length < (parseResponse r).length →
            translate_batch_with_deepseek texts response
              = (parseResponse r).take texts.length)) := by
  refine ⟨?_, ?_, ?_⟩
  · cases response with
    | error e => rfl
    | ok r =>
        show (reconcile texts (parseResponse r)).length = texts.length
        unfold reconcile
        split_ifs with h1 h2
        · rfl
        · rw [List.length_append, List.length_drop]; omega
        · rw [List.length_take]; omega
  · intro e he
    rw [he]
    rfl
  · intro r hr
    constructor
    · intro hle
      rw [hr]
      show reconcile texts (parseResponse r) = _
      unfold reconcile
      split_ifs with h1 h2
      · rw [List.length_eq_zero.mp h1]
        rfl
      · rfl
      · have hlen : (parseResponse r).length = texts.length := by omega
        rw [List.take_of_length_le (by omega), hlen, List.drop_length, List.append_nil]
    · intro hgt
      rw [hr]
      show reconcile texts (parseResponse r) = _
      unfold reconcile
      rw [if_neg (by omega), if_neg (by omega)]

/-- Claim C3 witness: the length invariant applied to concrete short, long
and failing backend responses. -/
theorem translator_batch_length_witness :
    translate_batch_with_deepseek ["a", "b"] (Except.ok "1. x") = ["x", "b"]
    ∧ translate_batch_with_deepseek ["a"] (Except.ok "1. x\n2. y") = ["x"]
    ∧ translate_batch_with_deepseek ["a", "b"] (Except.error ()) = ["a", "b"] := by
  refine ⟨?_, ?_, ?_⟩
  · have h := ((translator_batch_length_invariant ["a", "b"]
        (Except.ok "1. x")).2.2 "1. x" rfl).1 (by decide)
    rw [h]; decide
  · have h := ((translator_batch_length_invariant ["a"]
        (Except.ok "1. x\n2. y")).2.2 "1. x\n2. y" rfl).2 (by decide)
    rw [h]; decide
  · exact (translator_batch_length_invariant ["a", "b"]
      (Except.error ())).2.1 () rfl

/-! ### Claim C4: skip sentinel handling -/

theorem parseLines_append (xs ys : List String) :
    parseLines (xs ++ ys) = parseLines xs ++ parseLines ys := by
  induction xs with
  | nil => rfl
  | cons line rest ih =>
      simp only [List.cons_append, parseLines]
      split_ifs with h1
      · exact ih
      · cases hm : matchNumbered (pyStrip line) with
        | none => exact ih
        | some g =>
            simp only
            split_ifs
            · exact ih
            · exact ih
            · simp [ih]

/-- Claim C4 counterexample: a response line carrying the skip sentinel is
NOT emitted as empty text at its position.  For texts `["a", "b"]` and the
response whose first line is `1. [SKIP]` and second line `2. hola`, the
returned list is `["hola", "b"]`: position 0 holds the translation of line
2, not the empty string, so index alignment of subsequent lines is not
preserved. -/
theorem translator_skip_counterexample :
    translate_batch_with_deepseek ["a", "b"] (Except.ok "1. [SKIP]\n2. hola")
      = ["hola", "b"]
    ∧ (translate_batch_with_deepseek ["a", "b"]
        (Except.ok "1. [SKIP]\n2. hola")).get? 0 ≠ some "" := by
  constructor <;> decide

/-- Claim C4, amended: a numbered response line whose captured text
uppercases to the skip sentinel (`[SKIP]` or `SKIP`) is dropped entirely
from the parsed translation list — it contributes nothing at its position
(the list is as if the line were absent), and alignment is only restored by
tail-padding with the original texts, so subsequent lines shift one position
earlier. -/
theorem translator_skip_dropped (pre post : List String) (l g : String)
    (hmatch : matchNumbered (pyStrip l) = some g)
    (hskip : pyUpper (pyStrip g) = "[SKIP]" ∨ pyUpper (pyStrip g) = "SKIP") :
    parseLines (pre ++ l :: post) = parseLines (pre ++ post) := by
  have hnone : matchNumbered "" = none := by decide
  have hne : ¬ (pyStrip l = "") := by
    intro h0
    rw [h0, hnone] at hmatch
    exact Option.noConfusion hmatch
  have hcons : parseLines (l :: post) = parseLines post := by
    simp only [parseLines]
    rw [if_neg hne, hmatch]
    simp only
    rw [if_pos hskip]
  rw [parseLines_append, hcons, ← parseLines_append]

/-- Claim C4 witness: the skip-dropping theorem applied to a concrete
response line list. -/
theorem translator_skip_dropped_witness :
    parseLines ["0. intro", "1. [SKIP]", "2. hola"]
      = parseLines ["0. intro", "2. hola"] :=
  translator_skip_dropped ["0. intro"] ["2. hola"] "1. [SKIP]" "[SKIP]"
    (by decide) (Or.inl (by decide))

/-! ### Embedding of subtitle_shield_review (subtitle_shield.py) -/

/-- A pysrt subtitle item as used by the shield: only index and text matter
to the review loop.  (`Sub` is taken by Mathlib, hence `Subtitle`.) -/
structure Subtitle where
  index : ℤ
  text : String
  deriving DecidableEq, Repr

/-- One action of the AI review report, with the dictionary defaults used by
the code (`index` 0, `action` "keep", `corrected` "", `confidence` 0). -/
structure ReviewAction where
  index : ℤ
  action : String
  corrected : String
  confidence : ℤ
  deriving DecidableEq, Repr

/-- Python `str.lower()` (ASCII, which covers the action names compared). -/
def pyLower (s : String) : String := String.mk (s.toList.map Char.toLower)

/-- In-place text update `subs[idx].text = t` of the subtitle list. -/
def setText : List Subtitle → ℕ → String → List Subtitle
  | [], _, _ => []
  | s :: rest, 0, t => { s with text := t } :: rest
  | s :: rest, n + 1, t => s :: setText rest n t

/-- The mutable state of the shield's action loop: the subtitle list and the
edit/delete counters. -/
structure ShieldState where
  subs : List Subtitle
  edits : ℕ
  dels : ℕ
  deriving DecidableEq, Repr

/-- One iteration of the action loop of `subtitle_shield_review`: actions
below the confidence threshold 80 are skipped, an `edit` with a non-empty
correction and an in-range 0-based index rewrites the text, a `delete` with
an in-range index overwrites the text with the deletion marker. -/
def applyAction (st : ShieldState) (a : ReviewAction) : ShieldState :=
  if a.confidence < 80 then st
  else if pyLower a.action = "edit" ∧ a.corrected ≠ "" ∧ 0 ≤ a.index - 1
      ∧ a.index - 1 < (st.subs.length : ℤ) then
    { st with subs := setText st.subs (a.index - 1).toNat a.corrected, edits := st.edits + 1 }
  else if pyLower a.action = "delete" ∧ 0 ≤ a.index - 1
      ∧ a.index - 1 < (st.subs.length : ℤ) then
    { st with subs := setText st.subs (a.index - 1).toNat "[DELETE_MARKER]", dels := st.dels + 1 }
  else st

/-- The whole action loop. -/
def applyActions (subs : List Subtitle) (actions : List ReviewAction) : ShieldState :=
  actions.foldl applyAction ⟨subs, 0, 0⟩

/-- Function `subtitle_shield_review`: apply the review actions, then, if any delete
was applied, remove every subtitle whose text equals the deletion marker. -/
def subtitle_shield_review (subs : List Subtitle) (actions : List ReviewAction) : List Subtitle :=
  let st := applyActions subs actions
  if 0 < st.dels then st.subs.filter (fun s => s.text != "[DELETE_MARKER]")
  else st.subs

theorem applyAction_subs_length (st : ShieldState) (a : ReviewAction) :
    ((applyAction st a).subs).length = st.subs.length := by
  have hset : ∀ (l : List Subtitle) (n : ℕ) (t : String), (setText l n t).length = l.length := by
    intro l
    induction l with
    | nil => intro n t; rfl
    | cons s rest ih =>
        intro n t
        cases n with
        | zero => rfl
        | succ n => simp [setText, ih]
  unfold applyAction
  repeat' split
  all_goals simp [hset]

theorem foldl_applyAction_subs_length (st : ShieldState) (actions : List ReviewAction) :
    ((actions.foldl applyAction st).subs).length = st.subs.length := by
  induction actions generalizing st with
  | nil => rfl
  | cons a rest ih => rw [List.foldl_cons, ih, applyAction_subs_length]

theorem applyAction_dels_mono (st : ShieldState) (a : ReviewAction) :
    st.dels ≤ (applyAction st a).dels := by
  unfold applyAction
  repeat' split
  all_goals simp

theorem foldl_applyAction_dels_mono (st : ShieldState) (actions : List ReviewAction) :
    st.dels ≤ (actions.foldl applyAction st).dels := by
  induction actions generalizing st with
  | nil => exact le_refl _
  | cons a rest ih =>
      rw [List.foldl_cons]
      exact le_trans (applyAction_dels_mono st a) (ih _)

theorem applyAction_dels_strict (st : ShieldState) (a : ReviewAction)
    (hconf : 80 ≤ a.confidence) (hdel : pyLower a.action = "delete")
    (h0 : 0 ≤ a.index - 1) (h1 : a.index - 1 < (st.subs.length : ℤ)) :
    st.dels < (applyAction st a).dels := by
  unfold applyAction
  rw [if_neg (by omega)]
  rw [if_neg (fun hc => absurd (hdel ▸ hc.1) (by decide))]
  rw [if_pos ⟨hdel, h0, h1⟩]
  exact Nat.lt_succ_self _

theorem foldl_applyAction_dels_pos (actions : List ReviewAction) (st : ShieldState)
    (a : ReviewAction) (ha : a ∈ actions)
    (hconf : 80 ≤ a.confidence) (hdel : pyLower a.action = "delete")
    (h0 : 0 ≤ a.index - 1) (h1 : a.index - 1 < (st.subs.length : ℤ)) :
    0 < (actions.foldl applyAction st).dels := by
  induction actions generalizing st with
  | nil => exact absurd ha (List.not_mem_nil a)
  | cons b rest ih =>
      rw [List.foldl_cons]
      rcases List.mem_cons.mp ha with hab | harest
      · subst hab
        have hstrict := applyAction_dels_strict st a hconf hdel h0 h1
        have hmono := foldl_applyAction_dels_mono (applyAction st a) rest
        omega
      · exact ih (applyAction st b) harest
          (by rw [applyAction_subs_length]; exact h1)

/-! ### Claim C7: low-confidence actions are ignored -/

theorem foldl_applyAction_filter (actions : List ReviewAction) (st : ShieldState) :
    actions.foldl applyAction st
      = (actions.filter (fun a => decide ((80 : ℤ) ≤ a.confidence))).foldl applyAction st := by
  induction actions generalizing st with
  | nil => rfl
  | cons a rest ih =>
      by_cases h : (80 : ℤ) ≤ a.confidence
      · rw [List.foldl_cons, List.filter_cons_of_pos (by simpa using h), List.foldl_cons]
        exact ih _
      · rw [List.foldl_cons, List.filter_cons_of_neg (by simpa using h)]
        have hskip : applyAction st a = st := by
          unfold applyAction
          rw [if_pos (by omega)]
        rw [hskip]
        exact ih st

/-- Claim C7: every review action with confidence below 80 is ignored
entirely — the review result is identical to the result of reviewing with
only the actions of confidence at least 80, so a low-confidence action
causes no edit and no deletion of any subtitle. -/
theorem shield_low_confidence_ignored (subs : List Subtitle) (actions : List ReviewAction) :
    subtitle_shield_review subs actions
      = subtitle_shield_review subs
          (actions.filter (fun a => decide ((80 : ℤ) ≤ a.confidence))) := by
  unfold subtitle_shield_review applyActions
  rw [← foldl_applyAction_filter]

/-! ### Claim C10: delete-marker collateral removal -/

/-- Claim C10: `subtitle_shield_review` implements DELETE by overwriting the
target's text with the literal marker string and filtering every subtitle
whose text equals it; consequently, whenever at least one delete action (with
confidence at least 80, action "delete", and an in-range index) is applied,
no subtitle whose text is `[DELETE_MARKER]` survives — in particular a
subtitle whose text already equalled the marker before review is removed
even if no action targeted it. -/
theorem shield_delete_marker_collateral
    (subs : List Subtitle) (actions : List ReviewAction) (a : ReviewAction)
    (ha : a ∈ actions) (hconf : 80 ≤ a.confidence)
    (hdel : pyLower a.action = "delete")
    (h0 : 0 ≤ a.index - 1) (h1 : a.index - 1 < (subs.length : ℤ)) :
    ∀ s ∈ subtitle_shield_review subs actions, s.text ≠ "[DELETE_MARKER]" := by
  intro s hs
  unfold subtitle_shield_review at hs
  have hpos : 0 < (applyActions subs actions).dels :=
    foldl_applyAction_dels_pos actions ⟨subs, 0, 0⟩ a ha hconf hdel h0 h1
  rw [if_pos hpos] at hs
  have hmem := List.mem_filter.mp hs
  simpa using hmem.2

/-- Claim C10 witness: reviewing
`[(1, "[DELETE_MARKER]"), (2, "keep"), (3, "bad")]` with the single
confident delete action on index 3 leaves no marker-texted subtitle; the
theorem is instantiated at the surviving subtitle `(2, "keep")`. -/
theorem shield_delete_marker_witness :
    Subtitle.text ⟨2, "keep"⟩ ≠ "[DELETE_MARKER]" :=
  shield_delete_marker_collateral
    [⟨1, "[DELETE_MARKER]"⟩, ⟨2, "keep"⟩, ⟨3, "bad"⟩]
    [⟨3, "delete", "", 90⟩] ⟨3, "delete", "", 90⟩
    (List.mem_singleton.mpr rfl) (by decide) (by decide) (by decide) (by decide)
    ⟨2, "keep"⟩ (by decide)

/-! ### Embedding of the checkpoint store (checkpoint.py) -/

/-- A transcription result as handled by the pipeline: detected language and
segments. -/
structure Transcription where
  language : String
  segments : List Segment
  deriving DecidableEq, Repr

/-- The `data` payload stored in a checkpoint (fields of the transcription
and translation payloads; unused fields of a given stage are empty). -/
structure CheckpointData where
  transcription : Transcription
  detected_lang : String
  translated_subs : List Subtitle
  source_lang : String
  target_lang : String
  deriving DecidableEq, Repr

/-- The checkpoint record written by `CheckpointManager.save`: video path
and name, the completed step, an ISO timestamp and the payload. -/
structure CheckpointRecord where
  video_path : String
  video_name : String
  step : String
  timestamp : String
  data : CheckpointData
  deriving DecidableEq, Repr

/-- Observable content of the checkpoint file: missing, truncated by an
`open(..., "w")` not yet written to, bytes that are not valid JSON, or a
well-formed record. -/
inductive CPFile where
  | absent
  | truncated
  | corrupt
  | record (c : CheckpointRecord)
  deriving DecidableEq, Repr

/-- Primitive file operations performed on the checkpoint path. -/
inductive FileOp where
  | openTrunc
  | writeRecord (c : CheckpointRecord)
  | closeFile
  deriving DecidableEq, Repr

/-- Effect of one file operation on the checkpoint file. -/
def applyOp : CPFile → FileOp → CPFile
  | _, .openTrunc => .truncated
  | _, .writeRecord c => .record c
  | f, .closeFile => f

/-- Contents of the checkpoint file after a sequence of operations. -/
def runOps (f : CPFile) (ops : List FileOp) : CPFile := ops.foldl applyOp f

/-- Every file state observable while a sequence of operations runs,
including the initial one. -/
def statesFrom (f : CPFile) : List FileOp → List CPFile
  | [] => [f]
  | op :: rest => f :: statesFrom (applyOp f op) rest

/-- Atomicity from the caller's perspective: a concurrent reader can only
ever observe the previous content or the complete new record. -/
def atomicSave (old : CPFile) (c : CheckpointRecord) (ops : List FileOp) : Prop :=
  ∀ f ∈ statesFrom old ops, f = old ∨ f = CPFile.record c

/-- The observable behaviour of reading and `json.load`-parsing the
checkpoint file: the load raises on a truncated (empty) or corrupt file and
yields the record on a well-formed one. -/
def readAndParse : CPFile → Except String CheckpointRecord
  | .absent => .error "FileNotFoundError"
  | .truncated => .error "JSONDecodeError"
  | .corrupt => .error "JSONDecodeError"
  | .record c => .ok c

namespace CheckpointManager

/-- Method `CheckpointManager.save(step, data)`: `open(self.checkpoint_file, "w")`
truncates the file in place, then `json.dump` writes the record — a direct
write to the final path, with no temporary file or rename. -/
def save (c : CheckpointRecord) : List FileOp :=
  [FileOp.openTrunc, FileOp.writeRecord c, FileOp.closeFile]

/-- Method `CheckpointManager.load()`: `None` when the file does not exist,
otherwise the parsed record, with every exception of the parse turned into
`None`. -/
def load (f : CPFile) : Option CheckpointRecord :=
  if f = CPFile.absent then none
  else
    match readAndParse f with
    | .ok c => some c
    | .error _ => none

end CheckpointManager

/-! ### Claim C5: checkpoint save overwrite and atomicity -/

/-- Claim C5, amended: `CheckpointManager.save` overwrites any existing
checkpoint with the single new timestamped record — the final file content
is the new record whatever was there before — but it is a direct truncating
write to the checkpoint file (no temporary file, no rename): the observable
states during the save are exactly old, truncated, written, closed, so a
concurrent reader can observe a partially-written (truncated) file. -/
theorem checkpoint_save_overwrites (old : CPFile) (c : CheckpointRecord) :
    runOps old (CheckpointManager.save c) = CPFile.record c
    ∧ statesFrom old (CheckpointManager.save c)
        = [old, CPFile.truncated, CPFile.record c, CPFile.record c] :=
  ⟨rfl, rfl⟩

/-- Demonstration records for the checkpoint claims. -/
def demoData : CheckpointData :=
  { transcription := { language := "en", segments := [] }
    detected_lang := "en", translated_subs := [], source_lang := "en"
    target_lang := "id" }

def demoRecordA : CheckpointRecord :=
  { video_path := "v.mp4", video_name := "v", step := "transcription"
    timestamp := "2024-01-01T00:00:00", data := demoData }

def demoRecordB : CheckpointRecord :=
  { video_path := "v.mp4", video_name := "v", step := "translation"
    timestamp := "2024-01-01T01:00:00", data := demoData }

/-- Claim C5 counterexample: the save is not atomic from the caller's
perspective.  Overwriting the stored record A by record B exposes the
truncated state, which is neither the old record nor the new one — a
concurrent reader can observe a partially-written checkpoint. -/
theorem checkpoint_save_not_atomic :
    runOps (CPFile.record demoRecordA) (CheckpointManager.save demoRecordB)
        = CPFile.record demoRecordB
    ∧ ¬ atomicSave (CPFile.record demoRecordA) demoRecordB
        (CheckpointManager.save demoRecordB) := by
  constructor
  · rfl
  · intro h
    rcases h CPFile.truncated (by decide) with h1 | h1 <;> exact CPFile.noConfusion h1

/-- Claim C5 witness: the amended overwrite theorem applied to the concrete
records A (previous content) and B (new save). -/
theorem checkpoint_save_overwrites_witness :
    runOps (CPFile.record demoRecordA) (CheckpointManager.save demoRecordB)
        = CPFile.record demoRecordB
    ∧ statesFrom (CPFile.record demoRecordA) (CheckpointManager.save demoRecordB)
        = [CPFile.record demoRecordA, CPFile.truncated,
           CPFile.record demoRecordB, CPFile.record demoRecordB] :=
  checkpoint_save_overwrites (CPFile.record demoRecordA) demoRecordB

/-! ### Claim C6: checkpoint load never raises -/

/-- Claim C6: `CheckpointManager.load` returns the stored record when the
checkpoint file exists and parses; it returns `None` — and never propagates
an exception — both when the file does not exist and when its contents are
not valid JSON (corrupt or truncated); loading right after a completed save
returns the saved record. -/
theorem checkpoint_load_total :
    CheckpointManager.load CPFile.absent = none
    ∧ CheckpointManager.load CPFile.truncated = none
    ∧ CheckpointManager.load CPFile.corrupt = none
    ∧ (∀ c, CheckpointManager.load (CPFile.record c) = some c)
    ∧ (∀ old c, CheckpointManager.load (runOps old (CheckpointManager.save c)) = some c) :=
  ⟨rfl, rfl, rfl, fun _ => rfl, fun _ _ => rfl⟩

/-! ### Embedding of the orchestrator (generate_subtitle.py) -/

/-- Collaborator invocations and checkpoint operations observable while the
orchestrator runs. -/
inductive Event where
  | transcribe
  | analyzeStructure
  | translateCall
  | embedCall
  | saveCheckpoint (step : String)
  | clearCheckpoint
  deriving DecidableEq, Repr

/-- The orchestrator's environment: results the collaborators would return
and the flags read from CLI/env. -/
structure PipelineEnv where
  transcribed : Transcription
  saDeepseek : List String
  hasDeepseekKey : Bool
  useDeepseek : Bool
  doTranslate : Bool
  translated : List Subtitle
  outputVideoExists : Bool
  minDur : ℚ
  maxDur : ℚ
  gap : ℚ

/-- The transcription branch of Step 1 when no usable checkpoint exists:
transcribe, optionally run the DeepSeek structure analysis, adjust the
timing (`optimize_subtitle_gaps` is the identity in the source), and save a
`transcription` checkpoint when a checkpoint manager exists (`resume`). -/
def step1Transcribe (resume : Bool) (env : PipelineEnv) : Transcription × List Event :=
  if env.useDeepseek ∧ env.hasDeepseekKey then
    ({ env.transcribed with
        segments := adjust_subtitle_timing env.minDur env.maxDur env.gap
          env.transcribed.segments (some env.saDeepseek) },
      [Event.transcribe, Event.analyzeStructure]
        ++ (if resume then [Event.saveCheckpoint "transcription"] else []))
  else
    ({ env.transcribed with
        segments := adjust_subtitle_timing env.minDur env.maxDur env.gap
          env.transcribed.segments none },
      [Event.transcribe]
        ++ (if resume then [Event.saveCheckpoint "transcription"] else []))

/-- Step 1 of `generate_subtitle`: when resuming and the loaded checkpoint
records step `transcription`, `translation` or `embedding`, the transcription
is taken from the checkpoint payload and the transcriber is not invoked;
otherwise the transcription branch runs. -/
def step1 (resume : Bool) (stored : Option CheckpointRecord) (env : PipelineEnv) :
    Transcription × List Event :=
  match (if resume then stored else none) with
  | some cp =>
      if cp.step = "transcription" ∨ cp.step = "translation" ∨ cp.step = "embedding" then
        (cp.data.transcription, [])
      else step1Transcribe resume env
  | none => step1Transcribe resume env

/-- Step 2 (translation) events: skipped when the checkpoint records step
`translation` or `embedding`, otherwise the translator runs and a
`translation` checkpoint is saved when resuming. -/
def step2Events (resume : Bool) (existing : Option CheckpointRecord) : List Event :=
  match existing with
  | some cp =>
      if cp.step = "translation" ∨ cp.step = "embedding" then []
      else [Event.translateCall]
        ++ (if resume then [Event.saveCheckpoint "translation"] else [])
  | none =>
      [Event.translateCall]
        ++ (if resume then [Event.saveCheckpoint "translation"] else [])

/-- Step 3 (embedding) events: with an `embedding` checkpoint the embed is
skipped if the output video already exists and re-run without a new save
otherwise; with no such checkpoint the embedder runs and an `embedding`
checkpoint is saved when resuming. -/
def step3Events (resume : Bool) (existing : Option CheckpointRecord)
    (outputExists : Bool) : List Event :=
  match existing with
  | some cp =>
      if cp.step = "embedding" then
        if outputExists then [] else [Event.embedCall]
      else [Event.embedCall]
        ++ (if resume then [Event.saveCheckpoint "embedding"] else [])
  | none =>
      [Event.embedCall]
        ++ (if resume then [Event.saveCheckpoint "embedding"] else [])

/-- Function `generate_subtitle(video, ..., resume)`: the transcription used by the
rest of the run and the trace of collaborator invocations.  Translation,
embedding and the final checkpoint clear all live inside the
`if translate:` block of the source. -/
def generate_subtitle (resume : Bool) (stored : Option CheckpointRecord)
    (env : PipelineEnv) : Transcription × List Event :=
  ((step1 resume stored env).1,
    if env.doTranslate then
      (step1 resume stored env).2
        ++ step2Events resume (if resume then stored else none)
        ++ step3Events resume (if resume then stored else none) env.outputVideoExists
        ++ (if resume then [Event.clearCheckpoint] else [])
    else (step1 resume stored env).2)

theorem transcribe_not_mem_step2Events (resume : Bool)
    (existing : Option CheckpointRecord) :
    Event.transcribe ∉ step2Events resume existing := by
  unfold step2Events
  cases existing with
  | none => cases resume <;> simp
  | some cp =>
      by_cases h1 : cp.step = "translation" ∨ cp.step = "embedding" <;>
        cases resume <;> simp [h1]

theorem transcribe_not_mem_step3Events (resume : Bool)
    (existing : Option CheckpointRecord) (outputExists : Bool) :
    Event.transcribe ∉ step3Events resume existing outputExists := by
  unfold step3Events
  cases existing with
  | none => cases resume <;> simp
  | some cp =>
      by_cases h1 : cp.step = "embedding" <;>
        cases outputExists <;> cases resume <;> simp [h1]

/-! ### Claim C2: resume skips transcription -/

/-- Claim C2: if a checkpoint exists whose recorded step is `transcription`
(or a later stage), running the orchestrator with `resume = true` never
invokes the transcription collaborator, and the transcription it uses is the
checkpoint payload. -/
theorem resume_skips_transcription
    (stored : Option CheckpointRecord) (cp : CheckpointRecord) (env : PipelineEnv)
    (hstored : stored = some cp)
    (hstep : cp.step = "transcription" ∨ cp.step = "translation"
      ∨ cp.step = "embedding") :
    Event.transcribe ∉ (generate_subtitle true stored env).2
    ∧ (generate_subtitle true stored env).1 = cp.data.transcription := by
  subst hstored
  have hstep1 : step1 true (some cp) env = (cp.data.transcription, []) := by
    unfold step1
    simp only [if_pos trivial]
    rw [if_pos hstep]
  have e1 : (if true then (some cp : Option CheckpointRecord) else none) = some cp := rfl
  have e2 : (if true then [Event.clearCheckpoint] else ([] : List Event))
      = [Event.clearCheckpoint] := rfl
  constructor
  · unfold generate_subtitle
    rw [hstep1, e1, e2]
    split_ifs with hT
    · intro hmem
      rcases List.mem_append.mp hmem with hmem1 | h4
      · rcases List.mem_append.mp hmem1 with hmem2 | h3
        · rcases List.mem_append.mp hmem2 with h1 | h2
          · exact List.not_mem_nil _ h1
          · exact transcribe_not_mem_step2Events _ _ h2
        · exact transcribe_not_mem_step3Events _ _ _ h3
      · simp at h4
    · exact List.not_mem_nil _
  · unfold generate_subtitle
    rw [hstep1]

/-- Claim C2 witness: the resume theorem applied to a concrete checkpoint at
step `transcription` and a concrete environment. -/
theorem resume_skips_transcription_witness :
    Event.transcribe ∉ (generate_subtitle true (some demoRecordA)
        { transcribed := { language := "en", segments := [] }
          saDeepseek := [], hasDeepseekKey := false, useDeepseek := false
          doTranslate := true, translated := [], outputVideoExists := false
          minDur := 3/2, maxDur := 8, gap := 1/10 }).2
    ∧ (generate_subtitle true (some demoRecordA)
        { transcribed := { language := "en", segments := [] }
          saDeepseek := [], hasDeepseekKey := false, useDeepseek := false
          doTranslate := true, translated := [], outputVideoExists := false
          minDur := 3/2, maxDur := 8, gap := 1/10 }).1 = demoRecordA.data.transcription :=
  resume_skips_transcription (some demoRecordA) demoRecordA _ rfl (Or.inl rfl)
